import Mathlib

/-!
Verification of the rfid-asset-tracker repository.

The frontend components (Dashboard.svelte, ScanEventList.svelte,
AssetCard.svelte, AssetDetail.svelte, ManualScanForm.svelte) are embedded
directly from their TypeScript source.  The backend core (Event
Normalizer, Asset State Store, Status Reconciler) is not part of the
available sources; those components are modelled from the specification,
each such definition carrying a doc comment saying so.
-/

namespace RfidTracker

/-! ## Frontend data model (Dashboard.svelte / ScanEventList.svelte) -/

/-- The Asset record as declared in Dashboard.svelte. -/
structure Asset where
  id : Nat
  tag_id : String
  name : String
  description : String
  asset_type : String
  status : String
  last_seen : String
  last_location : String
  deriving Repr, DecidableEq

/-- The ScanEvent record as declared in Dashboard.svelte and
ScanEventList.svelte: `asset_name`, `asset_type` and `rssi` are optional
fields. -/
structure ScanEvent where
  tag_id : String
  location : String
  timestamp : String
  asset_name : Option String
  asset_type : Option String
  rssi : Option Int
  deriving Repr, DecidableEq

/-- The mutable component state of Dashboard.svelte that
`handleScanEvent` touches: the asset list and the recent-scans list. -/
structure DashboardState where
  assets : List Asset
  recentScans : List ScanEvent
  deriving Repr, DecidableEq

/-- The in-place mutation performed on the asset found by
`assets.find(a => a.tag_id === scanEvent.tag_id)`:
`asset.last_seen = scanEvent.timestamp; asset.last_location =
scanEvent.location; asset.status = "active"`. -/
def updateAsset (ev : ScanEvent) (a : Asset) : Asset :=
  { a with last_seen := ev.timestamp, last_location := ev.location, status := "active" }

/-- `assets.find` returns the first element matching the predicate and the
subsequent mutation changes only that element, so the asset list after
`handleScanEvent` is the original list with the first tag match updated. -/
def updateAssets (ev : ScanEvent) : List Asset → List Asset
  | [] => []
  | a :: rest =>
      if a.tag_id = ev.tag_id then updateAsset ev a :: rest
      else a :: updateAssets ev rest

/-- Dashboard.svelte `handleScanEvent`: prepends the event to
`recentScans` keeping `recentScans.slice(0, 4)` of the old list, and
updates the matching asset (if any) to active with the event's timestamp
and location. -/
def handleScanEvent (st : DashboardState) (ev : ScanEvent) : DashboardState :=
  { recentScans := ev :: st.recentScans.take 4,
    assets := updateAssets ev st.assets }

/-- Dashboard.svelte reactive block computing `filteredAssets` from
`assets` and `filter`: the string "all" yields a copy of the whole list,
any other value keeps the assets whose `status` equals the filter. -/
def filterAssets (assets : List Asset) (filter : String) : List Asset :=
  if filter = "all" then assets
  else assets.filter (fun a => a.status = filter)

/-! ## Spec-modelled backend core (not among the available sources) -/

/-- Modelled from the spec: the derived presence classification
{active, idle, missing} of an Asset (backend enum; the frontend sees it
as a string). -/
inductive Status where
  | active
  | idle
  | missing
  deriving Repr, DecidableEq

/-- Modelled from the spec: the configuration thresholds `T_active` and
`T_missing` consumed by the Status Reconciler. -/
structure Thresholds where
  tActive : Nat
  tMissing : Nat
  deriving Repr, DecidableEq

/-- Modelled from the spec: the backend Asset record held by the Asset
State Store; `last_seen` is a timestamp or absent if never seen. -/
structure StoreAsset where
  id : Nat
  tag_id : String
  status : Status
  last_seen : Option Nat
  last_location : Option String
  deriving Repr, DecidableEq

/-- Modelled from the spec: the canonical ScanEvent produced by the Event
Normalizer (only the fields the core logic reads). -/
structure CoreEvent where
  tag_id : String
  location : String
  timestamp : Nat
  deriving Repr, DecidableEq

/-- Modelled from the spec: a Transition record
`{asset_id, old_status, new_status}` returned by `apply` and
`sweepStatuses`. -/
structure Transition where
  asset_id : Nat
  old_status : Status
  new_status : Status
  deriving Repr, DecidableEq

/-- Modelled from the spec: the submitter-facing error taxonomy of the
Normalizer and the Asset State Store. -/
inductive CoreError where
  | UnknownTag
  | InvalidEvent
  deriving Repr, DecidableEq

/-- Modelled from the spec (§4.3 Status Reconciler): status as a pure
function of `last_seen` and the current time; with Δ = now - last_seen,
active when Δ < T_active, idle when T_active ≤ Δ < T_missing, missing
when Δ ≥ T_missing or `last_seen` absent. -/
def deriveStatus (th : Thresholds) (lastSeen : Option Nat) (now : Nat) : Status :=
  match lastSeen with
  | none => .missing
  | some t =>
      if now - t < th.tActive then .active
      else if now - t < th.tMissing then .idle
      else .missing

/-- Modelled from the spec (§4.2 `apply`): fails with `UnknownTag` when no
Asset has the event's `tag_id`, returning the store unchanged; otherwise
sets `last_seen`, `last_location`, makes the status active (a fresh
sighting) and returns the updated store, the updated Asset and the
Transition record. -/
def applyEvent (store : List StoreAsset) (ev : CoreEvent) :
    List StoreAsset × Except CoreError (StoreAsset × Transition) :=
  match store.find? (fun a => a.tag_id = ev.tag_id) with
  | none => (store, .error .UnknownTag)
  | some a =>
      let a2 : StoreAsset :=
        { a with status := .active, last_seen := some ev.timestamp,
                 last_location := some ev.location }
      (store.map (fun b => if b.id = a.id then a2 else b), .ok (a2, ⟨a.id, a.status, .active⟩))

/-- Modelled from the spec (§4.2 `sweepStatuses`): recomputes every
Asset's status from `now`, returning the updated store together with a
Transition for exactly the Assets whose status changed. -/
def sweepStatuses (th : Thresholds) (store : List StoreAsset) (now : Nat) :
    List StoreAsset × List Transition :=
  (store.map (fun a => { a with status := deriveStatus th a.last_seen now }),
   store.filterMap (fun a =>
     let ns := deriveStatus th a.last_seen now
     if a.status = ns then none else some ⟨a.id, a.status, ns⟩))

/-! ## Claim C7: status filtering -/

/-- C7: filtering the asset list by a status value returns exactly the
assets whose status equals that value, in the original order (the result
is a sublist of the input), and filtering by "all" returns the full list
unchanged. -/
theorem filterAssets_spec (assets : List Asset) (f : String) :
    filterAssets assets "all" = assets ∧
    (f ≠ "all" →
      (filterAssets assets f).Sublist assets ∧
      ∀ a, a ∈ filterAssets assets f ↔ a ∈ assets ∧ a.status = f) := by
  refine ⟨by simp [filterAssets], fun hf => ⟨?_, fun a => ?_⟩⟩
  · simp only [filterAssets, if_neg hf]
    exact List.filter_sublist assets
  · simp [filterAssets, if_neg hf, List.mem_filter]

/-- Witness for `filterAssets_spec` at a concrete list and filter. -/
theorem filterAssets_spec_witness :
    filterAssets [] "all" = [] ∧
    ("active" ≠ "all" →
      (filterAssets [] "active").Sublist [] ∧
      ∀ a, a ∈ filterAssets [] "active" ↔ a ∈ ([] : List Asset) ∧ a.status = "active") :=
  filterAssets_spec [] "active"

/-! ## Claim C8: recent-scans bounded buffer -/

/-- C8: after every handled scan event the recent-scans list has length at
most 5, the new event is at the head, and the tail is the first four of
the previous list (a prefix, hence the surviving earlier events keep
their relative order). -/
theorem recentScans_bounded (st : DashboardState) (ev : ScanEvent) :
    (handleScanEvent st ev).recentScans.length ≤ 5 ∧
    (handleScanEvent st ev).recentScans.head? = some ev ∧
    (handleScanEvent st ev).recentScans.tail = st.recentScans.take 4 ∧
    List.IsPrefix (st.recentScans.take 4) st.recentScans := by
  refine ⟨?_, rfl, rfl, List.take_prefix 4 st.recentScans⟩
  simp only [handleScanEvent, List.length_cons, List.length_take]
  omega

/-! ## Claim C3: status derivation -/

/-- C3: with Δ = now - last_seen, the derived status is active iff
Δ < T_active, idle iff T_active ≤ Δ < T_missing, and missing iff
Δ ≥ T_missing or last_seen is absent; in particular a never-seen Asset is
missing, not idle.  The missing characterization uses the configuration
invariant T_active < T_missing. -/
theorem deriveStatus_spec (th : Thresholds) (ls : Option Nat) (now : Nat)
    (hth : th.tActive < th.tMissing) :
    (deriveStatus th ls now = .active ↔ ∃ t, ls = some t ∧ now - t < th.tActive) ∧
    (deriveStatus th ls now = .idle ↔
      ∃ t, ls = some t ∧ th.tActive ≤ now - t ∧ now - t < th.tMissing) ∧
    (deriveStatus th ls now = .missing ↔
      ls = none ∨ ∃ t, ls = some t ∧ th.tMissing ≤ now - t) ∧
    deriveStatus th none now = .missing := by
  cases ls with
  | none =>
      exact ⟨by simp [deriveStatus], by simp [deriveStatus], by simp [deriveStatus], rfl⟩
  | some t =>
      by_cases h1 : now - t < th.tActive
      · refine ⟨?_, ?_, ?_, rfl⟩
        · simp only [deriveStatus, if_pos h1]
          exact ⟨fun _ => ⟨t, rfl, h1⟩, fun _ => trivial⟩
        · simp only [deriveStatus, if_pos h1]
          constructor
          · intro h; exact Status.noConfusion h
          · rintro ⟨u, hu, h⟩; cases hu; omega
        · simp only [deriveStatus, if_pos h1]
          constructor
          · intro h; exact Status.noConfusion h
          · rintro (h | ⟨u, hu, h⟩)
            · exact Option.noConfusion h
            · cases hu; omega
      · by_cases h2 : now - t < th.tMissing
        · refine ⟨?_, ?_, ?_, rfl⟩
          · simp only [deriveStatus, if_neg h1, if_pos h2]
            constructor
            · intro h; exact Status.noConfusion h
            · rintro ⟨u, hu, h⟩; cases hu; omega
          · simp only [deriveStatus, if_neg h1, if_pos h2]
            exact ⟨fun _ => ⟨t, rfl, by omega⟩, fun _ => trivial⟩
          · simp only [deriveStatus, if_neg h1, if_pos h2]
            constructor
            · intro h; exact Status.noConfusion h
            · rintro (h | ⟨u, hu, h⟩)
              · exact Option.noConfusion h
              · cases hu; omega
        · refine ⟨?_, ?_, ?_, rfl⟩
          · simp only [deriveStatus, if_neg h1, if_neg h2]
            constructor
            · intro h; exact Status.noConfusion h
            · rintro ⟨u, hu, h⟩; cases hu; omega
          · simp only [deriveStatus, if_neg h1, if_neg h2]
            constructor
            · intro h; exact Status.noConfusion h
            · rintro ⟨u, hu, h⟩; cases hu; omega
          · simp only [deriveStatus, if_neg h1, if_neg h2]
            exact ⟨fun _ => Or.inr ⟨t, rfl, by omega⟩, fun _ => trivial⟩

/-- Witness for `deriveStatus_spec` with thresholds 10 < 30 and a
never-seen Asset at time 35. -/
theorem deriveStatus_spec_witness :
    (deriveStatus ⟨10, 30⟩ none 35 = .active ↔ ∃ t, (none : Option Nat) = some t ∧ 35 - t < 10) ∧
    (deriveStatus ⟨10, 30⟩ none 35 = .idle ↔
      ∃ t, (none : Option Nat) = some t ∧ 10 ≤ 35 - t ∧ 35 - t < 30) ∧
    (deriveStatus ⟨10, 30⟩ none 35 = .missing ↔
      (none : Option Nat) = none ∨ ∃ t, (none : Option Nat) = some t ∧ 30 ≤ 35 - t) ∧
    deriveStatus ⟨10, 30⟩ none 35 = .missing :=
  deriveStatus_spec ⟨10, 30⟩ none 35 (by decide)

/-! ## Claim C5: monotone status decay -/

/-- Severity order of statuses: active below idle below missing. -/
def severity : Status → Nat
  | .active => 0
  | .idle => 1
  | .missing => 2

/-- C5: for a fixed last_seen and no further sightings, the status derived
at increasing time offsets is non-increasing in the severity order
active → idle → missing (no hypothesis on the thresholds is needed: the
derivation tests Δ < T_active before Δ < T_missing). -/
theorem deriveStatus_monotone (th : Thresholds) (ls : Option Nat) (t1 t2 : Nat)
    (h12 : t1 ≤ t2) :
    severity (deriveStatus th ls t1) ≤ severity (deriveStatus th ls t2) := by
  cases ls with
  | none => simp [deriveStatus]
  | some t =>
      have hd : t1 - t ≤ t2 - t := Nat.sub_le_sub_right h12 t
      simp only [deriveStatus]
      by_cases a1 : t1 - t < th.tActive <;>
        by_cases m1 : t1 - t < th.tMissing <;>
        by_cases a2 : t2 - t < th.tActive <;>
        by_cases m2 : t2 - t < th.tMissing <;>
        simp [a1, m1, a2, m2, severity] <;>
        omega

/-- Witness for `deriveStatus_monotone`: an Asset last seen at 0 observed
at 15 then 35 with thresholds 10, 30. -/
theorem deriveStatus_monotone_witness :
    severity (deriveStatus ⟨10, 30⟩ (some 0) 15) ≤ severity (deriveStatus ⟨10, 30⟩ (some 0) 35) :=
  deriveStatus_monotone ⟨10, 30⟩ (some 0) 15 35 (by decide)

/-! ## Claim C4: reconciliation is idempotent -/

/-- C4: sweeping twice at the same `now` with no intervening apply yields
no Transitions on the second call, and every Transition a sweep returns
records an actual status change. -/
theorem sweepStatuses_idempotent (th : Thresholds) (store : List StoreAsset) (now : Nat) :
    (sweepStatuses th (sweepStatuses th store now).1 now).2 = [] ∧
    ∀ tr ∈ (sweepStatuses th store now).2, tr.old_status ≠ tr.new_status := by
  constructor
  · simp only [sweepStatuses, List.filterMap_map]
    induction store with
    | nil => rfl
    | cons a rest ih =>
        simp only [List.filterMap_cons] at ih ⊢
        split
        · exact ih
        · simp_all
  · intro tr htr
    simp only [sweepStatuses, List.mem_filterMap] at htr
    obtain ⟨a, _, ha⟩ := htr
    by_cases h : a.status = deriveStatus th a.last_seen now
    · simp [h] at ha
    · simp only [if_neg h] at ha
      cases ha
      exact h

/-- Witness for `sweepStatuses_idempotent` on a one-asset store swept at
time 35. -/
theorem sweepStatuses_idempotent_witness :
    (sweepStatuses ⟨10, 30⟩
        (sweepStatuses ⟨10, 30⟩ [⟨1, "RF001", Status.active, some 0, none⟩] 35).1 35).2 = [] ∧
    ∀ tr ∈ (sweepStatuses ⟨10, 30⟩ [⟨1, "RF001", Status.active, some 0, none⟩] 35).2,
      tr.old_status ≠ tr.new_status :=
  sweepStatuses_idempotent ⟨10, 30⟩ [⟨1, "RF001", Status.active, some 0, none⟩] 35

/-! ## Claims C1 and C2: applying events to the asset state -/

/-- Helper: `updateAsset` does not change the tag. -/
theorem updateAsset_tag (ev : ScanEvent) (a : Asset) :
    (updateAsset ev a).tag_id = a.tag_id := rfl

/-- Helper: with pairwise-distinct tags, every member of the updated
asset list that carries the event's tag has been updated, and when the
tag is known such a member exists. -/
theorem updateAssets_first_match (ev : ScanEvent) :
    ∀ l : List Asset, l.Pairwise (fun a b => a.tag_id ≠ b.tag_id) →
      ((∃ a ∈ l, a.tag_id = ev.tag_id) → ∃ a ∈ updateAssets ev l, a.tag_id = ev.tag_id) ∧
      ∀ a ∈ updateAssets ev l, a.tag_id = ev.tag_id →
        a.status = "active" ∧ a.last_seen = ev.timestamp ∧ a.last_location = ev.location := by
  intro l
  induction l with
  | nil => exact fun _ => ⟨fun ⟨a, ha, _⟩ => absurd ha (List.not_mem_nil a), fun a ha => absurd ha (List.not_mem_nil a)⟩
  | cons a rest ih =>
      intro hp
      have hhead := (List.pairwise_cons.mp hp).1
      have htail := (List.pairwise_cons.mp hp).2
      by_cases htag : a.tag_id = ev.tag_id
      · refine ⟨fun _ => ⟨updateAsset ev a, ?_, htag⟩, ?_⟩
        · simp [updateAssets, if_pos htag]
        · intro b hb hbtag
          simp only [updateAssets, if_pos htag, List.mem_cons] at hb
          cases hb with
          | inl h => subst h; exact ⟨rfl, rfl, rfl⟩
          | inr h => exact absurd (htag.trans hbtag.symm) (hhead b h)
      · have ihr := ih htail
        refine ⟨fun ⟨c, hc, hctag⟩ => ?_, ?_⟩
        · rcases List.mem_cons.mp hc with h | h
          · exact absurd (h ▸ hctag) htag
          · obtain ⟨d, hd, hdtag⟩ := ihr.1 ⟨c, h, hctag⟩
            exact ⟨d, by simp [updateAssets, if_neg htag, List.mem_cons, hd], hdtag⟩
        · intro b hb hbtag
          simp only [updateAssets, if_neg htag, List.mem_cons] at hb
          cases hb with
          | inl h => subst h; exact absurd hbtag htag
          | inr h => exact ihr.2 b h hbtag

/-- C1: when the event's tag is known (and tags are unique across assets,
as the spec requires), `handleScanEvent` leaves some asset carrying the
tag and every asset carrying the tag has status "active", last_seen equal
to the event's timestamp and last_location equal to the event's location,
regardless of its prior status. -/
theorem handleScanEvent_known_tag (st : DashboardState) (ev : ScanEvent)
    (hnodup : st.assets.Pairwise (fun a b => a.tag_id ≠ b.tag_id))
    (hknown : ∃ a ∈ st.assets, a.tag_id = ev.tag_id) :
    (∃ a ∈ (handleScanEvent st ev).assets, a.tag_id = ev.tag_id) ∧
    ∀ a ∈ (handleScanEvent st ev).assets, a.tag_id = ev.tag_id →
      a.status = "active" ∧ a.last_seen = ev.timestamp ∧ a.last_location = ev.location :=
  ⟨(updateAssets_first_match ev st.assets hnodup).1 hknown,
   (updateAssets_first_match ev st.assets hnodup).2⟩

/-- Witness for `handleScanEvent_known_tag` on a one-asset state. -/
theorem handleScanEvent_known_tag_witness :
    (∃ a ∈ (handleScanEvent
        ⟨[⟨1, "RF001", "Laptop", "", "electronics", "missing", "", ""⟩], []⟩
        ⟨"RF001", "Office", "2024-01-01T00:00:00Z", none, none, none⟩).assets,
      a.tag_id = "RF001") ∧
    ∀ a ∈ (handleScanEvent
        ⟨[⟨1, "RF001", "Laptop", "", "electronics", "missing", "", ""⟩], []⟩
        ⟨"RF001", "Office", "2024-01-01T00:00:00Z", none, none, none⟩).assets,
      a.tag_id = "RF001" →
      a.status = "active" ∧ a.last_seen = "2024-01-01T00:00:00Z" ∧ a.last_location = "Office" :=
  handleScanEvent_known_tag
    ⟨[⟨1, "RF001", "Laptop", "", "electronics", "missing", "", ""⟩], []⟩
    ⟨"RF001", "Office", "2024-01-01T00:00:00Z", none, none, none⟩
    (by simp)
    ⟨⟨1, "RF001", "Laptop", "", "electronics", "missing", "", ""⟩, by simp, rfl⟩

/-- Helper: an event whose tag matches no asset leaves the asset list
untouched. -/
theorem updateAssets_no_match (ev : ScanEvent) :
    ∀ l : List Asset, (∀ a ∈ l, a.tag_id ≠ ev.tag_id) → updateAssets ev l = l := by
  intro l
  induction l with
  | nil => intro _; rfl
  | cons a rest ih =>
      intro h
      have ha : a.tag_id ≠ ev.tag_id := h a (List.mem_cons_self a rest)
      simp only [updateAssets, if_neg ha, List.cons.injEq, true_and]
      exact ih fun b hb => h b (List.mem_cons_of_mem a hb)

/-- C2: an event with an unknown tag changes no asset — the dashboard's
asset list is unchanged by `handleScanEvent`, and (spec-modelled) the
Asset State Store's `apply` returns the store unchanged together with the
UnknownTag error surfaced to the submitter. -/
theorem unknown_tag_no_change (st : DashboardState) (ev : ScanEvent)
    (store : List StoreAsset) (nev : CoreEvent)
    (hfe : ∀ a ∈ st.assets, a.tag_id ≠ ev.tag_id)
    (hbe : ∀ a ∈ store, a.tag_id ≠ nev.tag_id) :
    (handleScanEvent st ev).assets = st.assets ∧
    applyEvent store nev = (store, .error .UnknownTag) := by
  constructor
  · exact updateAssets_no_match ev st.assets hfe
  · have hnone : store.find? (fun a => a.tag_id = nev.tag_id) = none := by
      rw [List.find?_eq_none]
      intro a ha
      simp [hbe a ha]
    simp [applyEvent, hnone]

/-- Witness for `unknown_tag_no_change` with the unknown tag RF999. -/
theorem unknown_tag_no_change_witness :
    (handleScanEvent
        ⟨[⟨1, "RF001", "Laptop", "", "electronics", "active", "", ""⟩], []⟩
        ⟨"RF999", "Lobby", "t0", none, none, none⟩).assets =
      [⟨1, "RF001", "Laptop", "", "electronics", "active", "", ""⟩] ∧
    applyEvent [⟨1, "RF001", Status.active, none, none⟩] ⟨"RF999", "Lobby", 0⟩ =
      ([⟨1, "RF001", Status.active, none, none⟩], .error .UnknownTag) :=
  unknown_tag_no_change
    ⟨[⟨1, "RF001", "Laptop", "", "electronics", "active", "", ""⟩], []⟩
    ⟨"RF999", "Lobby", "t0", none, none, none⟩
    [⟨1, "RF001", Status.active, none, none⟩] ⟨"RF999", "Lobby", 0⟩
    (by simp) (by simp)

/-! ## Claim C6: the Event Normalizer -/

/-- Modelled from the spec (§6 inbound submission boundary): a raw
external submission carries only a tag_id and a location; either field
may be missing or empty. -/
structure RawSubmission where
  tag_id : Option String
  location : Option String
  deriving Repr, DecidableEq

/-- A required string field is present when it is supplied and
non-empty. -/
def fieldPresent : Option String → Prop
  | none => False
  | some s => s ≠ ""

instance (o : Option String) : Decidable (fieldPresent o) := by
  cases o with
  | none => exact isFalse id
  | some s => exact inferInstanceAs (Decidable (s ≠ ""))

/-- Modelled from the spec (§4.1 Event Normalizer): validates the raw
submission, failing with InvalidEvent when tag_id or location is
missing or empty, and otherwise emits the canonical event stamped with
the process clock read at acceptance. -/
def normalize (raw : RawSubmission) (clock : Nat) : Except CoreError CoreEvent :=
  match raw.tag_id, raw.location with
  | some t, some l =>
      if t = "" ∨ l = "" then .error .InvalidEvent
      else .ok ⟨t, l, clock⟩
  | _, _ => .error .InvalidEvent

/-- C6: normalization succeeds exactly when both tag_id and location are
present and non-empty, fails with InvalidEvent otherwise, and the
produced event's timestamp is the process clock at acceptance (the
submission carries no time to trust) with tag and location copied from
the submission. -/
theorem normalize_spec (raw : RawSubmission) (clock : Nat) :
    ((∃ ev, normalize raw clock = .ok ev) ↔
      fieldPresent raw.tag_id ∧ fieldPresent raw.location) ∧
    (¬ (fieldPresent raw.tag_id ∧ fieldPresent raw.location) →
      normalize raw clock = .error .InvalidEvent) ∧
    ∀ ev, normalize raw clock = .ok ev →
      ev.timestamp = clock ∧ raw.tag_id = some ev.tag_id ∧ raw.location = some ev.location := by
  obtain ⟨t?, l?⟩ := raw
  cases t? with
  | none =>
      refine ⟨⟨fun ⟨ev, hev⟩ => ?_, fun h => absurd h.1 id⟩, fun _ => ?_, fun ev hev => ?_⟩ <;>
        first
          | (cases l? <;> exact Except.noConfusion hev)
          | (cases l? <;> rfl)
  | some t =>
      cases l? with
      | none =>
          exact ⟨⟨fun ⟨ev, hev⟩ => Except.noConfusion hev, fun h => absurd h.2 id⟩,
                 fun _ => rfl, fun ev hev => Except.noConfusion hev⟩
      | some l =>
          by_cases ht : t = ""
          · refine ⟨⟨fun ⟨ev, hev⟩ => ?_, fun h => absurd ht h.1⟩, fun _ => ?_, fun ev hev => ?_⟩
            · rw [normalize.eq_def] at hev
              simp [ht] at hev
            · rw [normalize.eq_def]
              simp [ht]
            · rw [normalize.eq_def] at hev
              simp [ht] at hev
          · by_cases hl : l = ""
            · refine ⟨⟨fun ⟨ev, hev⟩ => ?_, fun h => absurd hl h.2⟩, fun _ => ?_, fun ev hev => ?_⟩
              · rw [normalize.eq_def] at hev
                simp [hl] at hev
              · rw [normalize.eq_def]
                simp [hl]
              · rw [normalize.eq_def] at hev
                simp [hl] at hev
            · refine ⟨⟨fun _ => ⟨ht, hl⟩, fun _ => ⟨⟨t, l, clock⟩, ?_⟩⟩, fun h => absurd ⟨ht, hl⟩ h, fun ev hev => ?_⟩
              · rw [normalize.eq_def]
                simp [ht, hl]
              · obtain ⟨et, el, ets⟩ := ev
                rw [normalize.eq_def] at hev
                simp [ht, hl] at hev
                simp_all

/-- Witness for `normalize_spec` on the submission
{tag_id: RF001, location: Office} at clock 42. -/
theorem normalize_spec_witness :
    ((∃ ev, normalize ⟨some "RF001", some "Office"⟩ 42 = .ok ev) ↔
      fieldPresent (some "RF001") ∧ fieldPresent (some "Office")) ∧
    (¬ (fieldPresent (some "RF001") ∧ fieldPresent (some "Office")) →
      normalize ⟨some "RF001", some "Office"⟩ 42 = .error .InvalidEvent) ∧
    ∀ ev, normalize ⟨some "RF001", some "Office"⟩ 42 = .ok ev →
      ev.timestamp = 42 ∧ some "RF001" = some ev.tag_id ∧ some "Office" = some ev.location :=
  normalize_spec ⟨some "RF001", some "Office"⟩ 42

/-! ## Claim C9: timestamp formatting helpers -/

/-- JS falsiness of a string-or-null value: null/undefined and the empty
string are falsy (the guard in the formatting helpers). -/
def jsFalsyStr : Option String → Bool
  | none => true
  | some s => s == ""

/-- ScanEventList.svelte `formatTime`, parameterized over the date-fns
functions: `parseISO` throws on input it cannot parse, modelled as
returning `Option`, with a `none` result standing for the thrown
exception escaping the helper.  Returns "N/A" without parsing when the
timestamp is falsy, otherwise formats the parsed date with pattern
"h:mm:ss a". -/
def formatTime {D : Type} (parseISO : String → Option D) (format : D → String → String)
    (timestamp : Option String) : Option String :=
  if jsFalsyStr timestamp then some "N/A"
  else (timestamp.bind parseISO).map (fun d => format d "h:mm:ss a")

/-- ScanEventList.svelte `formatDate`: as `formatTime` with pattern
"MMM d". -/
def formatDate {D : Type} (parseISO : String → Option D) (format : D → String → String)
    (timestamp : Option String) : Option String :=
  if jsFalsyStr timestamp then some "N/A"
  else (timestamp.bind parseISO).map (fun d => format d "MMM d")

/-- AssetCard.svelte `formatLastSeen`: returns "Never" when `lastSeen`
is falsy, otherwise formats the parsed date with pattern
"MMM d, yyyy h:mm a". -/
def formatLastSeen {D : Type} (parseISO : String → Option D) (format : D → String → String)
    (lastSeen : Option String) : Option String :=
  if jsFalsyStr lastSeen then some "Never"
  else (lastSeen.bind parseISO).map (fun d => format d "MMM d, yyyy h:mm a")

/-- C9: the formatting helpers are total on missing input — for a null or
empty timestamp they return "N/A" (respectively "Never") for every
parser and formatter, in particular for a parser that always throws, so
the date parser is never consulted. -/
theorem format_helpers_total {D : Type} (parseISO : String → Option D)
    (format : D → String → String) (ts : Option String)
    (hts : jsFalsyStr ts = true) :
    formatTime parseISO format ts = some "N/A" ∧
    formatDate parseISO format ts = some "N/A" ∧
    formatLastSeen parseISO format ts = some "Never" := by
  refine ⟨?_, ?_, ?_⟩ <;> simp [formatTime, formatDate, formatLastSeen, hts]

/-- Witness for `format_helpers_total`: a null timestamp under a parser
that always throws. -/
theorem format_helpers_total_witness :
    formatTime (fun _ => (none : Option Unit)) (fun _ _ => "") none = some "N/A" ∧
    formatDate (fun _ => (none : Option Unit)) (fun _ _ => "") none = some "N/A" ∧
    formatLastSeen (fun _ => (none : Option Unit)) (fun _ _ => "") none = some "Never" :=
  format_helpers_total (fun _ => none) (fun _ _ => "") none rfl

/-! ## Claim C10: rssi rendering -/

/-- JS truthiness of the optional numeric rssi: null/undefined and 0 are
falsy. -/
def jsTruthyNum : Option Int → Bool
  | none => false
  | some v => v != 0

/-- ScanEventList.svelte: the signal-strength line is guarded by
truthiness of `event.rssi`. -/
def showSignalLine (ev : ScanEvent) : Bool := jsTruthyNum ev.rssi

/-- AssetDetail scan-history cell: renders the rssi value followed by
" dBm" when `scan.rssi` is truthy, and the literal "N/A" otherwise. -/
def rssiCell (rssi : Option Int) : String :=
  if jsTruthyNum rssi then
    match rssi with
    | some v => toString v ++ " dBm"
    | none => "N/A"
  else "N/A"

/-- C10: the signal-strength line is rendered iff rssi is present and
non-zero; an rssi of 0 is rendered exactly like an absent rssi both in
the recent-scans list and in the scan-history table, while a non-zero
reading is rendered as its value with the dBm unit. -/
theorem rssi_render_spec (ev : ScanEvent) (v : Int) :
    (showSignalLine ev = true ↔ ∃ r, ev.rssi = some r ∧ r ≠ 0) ∧
    showSignalLine { ev with rssi := some 0 } = showSignalLine { ev with rssi := none } ∧
    rssiCell (some 0) = "N/A" ∧
    rssiCell none = "N/A" ∧
    (v ≠ 0 → rssiCell (some v) = toString v ++ " dBm") := by
  refine ⟨?_, rfl, rfl, rfl, fun hv => ?_⟩
  · cases h : ev.rssi with
    | none => simp [showSignalLine, jsTruthyNum, h]
    | some r =>
        simp only [showSignalLine, jsTruthyNum, h]
        constructor
        · intro hr
          exact ⟨r, rfl, by simpa using hr⟩
        · rintro ⟨r2, hr2, hr2ne⟩
          cases hr2
          simpa using hr2ne
  · simp only [rssiCell, jsTruthyNum]
    rw [if_pos (by simpa using hv)]

/-- Witness for `rssi_render_spec` at an event carrying rssi -50. -/
theorem rssi_render_spec_witness :
    (showSignalLine ⟨"RF001", "Office", "t0", none, none, some (-50)⟩ = true ↔
      ∃ r, (some (-50) : Option Int) = some r ∧ r ≠ 0) ∧
    showSignalLine ⟨"RF001", "Office", "t0", none, none, some 0⟩ =
      showSignalLine ⟨"RF001", "Office", "t0", none, none, none⟩ ∧
    rssiCell (some 0) = "N/A" ∧
    rssiCell none = "N/A" ∧
    ((-50 : Int) ≠ 0 → rssiCell (some (-50)) = toString (-50 : Int) ++ " dBm") :=
  rssi_render_spec ⟨"RF001", "Office", "t0", none, none, some (-50)⟩ (-50)

end RfidTracker
